import Mathlib

/-!
Shallow embedding of `ansys/tools/versioning/utils.py` from the
`pyansys-tools-versioning` repository, together with theorems settling the
specification claims about it.

Python strings are modelled as `List Char`; Python integers as `Int`;
raised exceptions as the `Except` monad over an explicit error type.
Each definition mirrors the corresponding Python function; the resolved
semantics of Python's rich-comparison protocol (including `NotImplemented`
reflection between the `myint` and `mystr` classes) is spelled out in the
component comparison tables below.
-/

/-- Python strings, modelled as lists of characters. -/
abbrev PyStr := List Char

/-- Whitespace characters removed by Python's `str.strip()` (ASCII model). -/
def pyIsSpace (c : Char) : Bool :=
  c == ' ' || c == '\t' || c == '\n' || c == '\r' || c == '\x0b' || c == '\x0c'

/-- Python `str.strip()`: drop leading and trailing whitespace. -/
def pyStrip (s : PyStr) : PyStr :=
  ((s.dropWhile pyIsSpace).reverse.dropWhile pyIsSpace).reverse

/-- Python `str.isdigit()` (ASCII decimal model): nonempty and all digits. -/
def pyIsDigitStr (s : PyStr) : Bool :=
  !s.isEmpty && s.all Char.isDigit

/-- Python `str.lower()` (ASCII model). -/
def pyLower (s : PyStr) : PyStr := s.map Char.toLower

/-- Python `s.replace("dev", "")`: delete every (non-overlapping, left-to-right)
occurrence of the three characters `dev`. -/
def removeDev : PyStr → PyStr
  | 'd' :: 'e' :: 'v' :: rest => removeDev rest
  | c :: rest => c :: removeDev rest
  | [] => []

/-- Python `s.replace(".", "")`: delete every dot. -/
def removeDots (s : PyStr) : PyStr := s.filter (fun c => c ≠ '.')

/-- Prepend a character to the first piece of a split result. -/
def consHead (c : Char) : List PyStr → List PyStr
  | h :: t => (c :: h) :: t
  | [] => [[c]]

/-- Python `s.split(".")`. -/
def splitOnDot : PyStr → List PyStr
  | [] => [[]]
  | c :: rest => if c = '.' then [] :: splitOnDot rest else consHead c (splitOnDot rest)

/-- Python `".".join(parts)`. -/
def joinDot : List PyStr → PyStr
  | [] => []
  | [p] => p
  | p :: ps => p ++ '.' :: joinDot ps

/-- Whether `pat` occurs at the start of `s` (helper for Python's `in`). -/
def strStartsWith : PyStr → PyStr → Bool
  | [], _ => true
  | _ :: _, [] => false
  | p :: ps, c :: cs => p == c && strStartsWith ps cs

/-- Python's substring test `pat in s`. -/
def containsSub (pat : PyStr) : PyStr → Bool
  | [] => pat.isEmpty
  | c :: cs => strStartsWith pat (c :: cs) || containsSub pat cs

/-- The characters of the literal `"dev"`. -/
def devChars : PyStr := ['d', 'e', 'v']

/-- Python `"dev" in s`. -/
def containsDev (s : PyStr) : Bool := containsSub devChars s

/-- Decimal digits of `n`, least significant first, via repeated division by
ten; a structural fuel argument makes the recursion kernel-reducible. -/
def natDigitsRevAux : Nat → Nat → List Nat
  | _, 0 => []
  | 0, _ + 1 => []
  | fuel + 1, n + 1 => ((n + 1) % 10) :: natDigitsRevAux fuel ((n + 1) / 10)

/-- Decimal digits of `n`, least significant first (`[]` for `0`). -/
def natDigitsRev (n : Nat) : List Nat := natDigitsRevAux n n

/-- Python `str(n)` for a natural number: decimal, no leading zeros. -/
def natToStr (n : Nat) : PyStr :=
  if n = 0 then ['0'] else ((natDigitsRev n).map Nat.digitChar).reverse

/-- Python `str(i)` for an integer. -/
def intToStr (i : Int) : PyStr :=
  if i < 0 then '-' :: natToStr i.natAbs else natToStr i.toNat

/-- Python `int(s)` for a string of decimal digits. -/
def strToNat (s : PyStr) : Nat :=
  s.foldl (fun a c => 10 * a + (c.toNat - 48)) 0

/-- Errors a call can raise.  `valueError`, `twoDevCompare` and
`invalidVersionStr` are all Python `ValueError`s (the latter two carry the
messages "Two 'dev' versions cannot be compared against." and
"Invalid version string"); the rest are the other exception classes the
module raises. -/
inductive PyErr where
  | valueError
  | twoDevCompare
  | invalidVersionStr
  | versionSyntaxError
  | versionError (msg : PyStr)
  | attributeError
  | keyError
deriving DecidableEq, Repr

/-- Whether an error is (a subclass of) Python `ValueError`, i.e. is caught
by an `except ValueError` clause. -/
def PyErr.isValueError : PyErr → Bool
  | .valueError => true
  | .twoDevCompare => true
  | .invalidVersionStr => true
  | _ => false

/-- A version component as produced by `VersionNumber.__new__`: either a
`myint` (an `int` subclass) or a `mystr` (a `str` subclass).  Both mix in
`VersionMeta`, which overrides the comparison dunders. -/
inductive VComp where
  | num (i : Int)
  | dev (s : PyStr)
deriving DecidableEq, Repr

/-- A dynamically-typed tuple element: a Python `int` or `str`. -/
inductive PyVal where
  | int (i : Int)
  | str (s : PyStr)
deriving DecidableEq, Repr

/-- A `myint` IS an `int` and a `mystr` IS a `str`: re-submitting a component
to a dynamically-typed context sees it under its base type. -/
def VComp.toPyVal : VComp → PyVal
  | .num i => .int i
  | .dev s => .str s

/-!
Resolved semantics of the Python comparison operators between `myint` and
`mystr` values (classes `myint(VersionMeta, int)` / `mystr(VersionMeta, str)`).

For `dev s OP num b`, `VersionMeta.__le__`/`__lt__`/`__ge__`/`__gt__` falls
through to `str.__op__(int)`, which returns `NotImplemented`, so Python then
invokes the mirrored operator on the `myint` operand; that mirrored call takes
the `isinstance(__x, str)` branch of `VersionMeta`.  The tables below record
the overall outcome of each operator application.
-/

/-- Python `x == y` on two components (`VersionMeta.__eq__`, with
`NotImplemented` reflection for `mystr == myint`).  Never raises. -/
def veq : VComp → VComp → Bool
  | .num a, .num b => a == b
  | .num _, .dev _ => false
  | .dev _, .num _ => false
  | .dev s, .dev t => if containsDev s && containsDev t then s == t else false

/-- Python `x != y` on two components (`VersionMeta.__ne__`).  Never raises. -/
def vne : VComp → VComp → Bool
  | .num a, .num b => a != b
  | .num _, .dev _ => true
  | .dev _, .num _ => true
  | .dev s, .dev t => !(veq (.dev s) (.dev t))

/-- Python `x < y` on two components (`VersionMeta.__lt__`, with reflection
`num b > dev s ↦ myint.__gt__`). -/
def vlt : VComp → VComp → Except PyErr Bool
  | .num a, .num b => .ok (decide (a < b))
  | .num _, .dev t => if containsDev t then .ok true else .error .invalidVersionStr
  | .dev s, .num _ => if containsDev s then .ok false else .error .invalidVersionStr
  | .dev s, .dev t =>
    if containsDev t && containsDev s then .error .twoDevCompare
    else if containsDev t then .ok true
    else .error .invalidVersionStr

/-- Python `x <= y` on two components (`VersionMeta.__le__`, with reflection). -/
def vle : VComp → VComp → Except PyErr Bool
  | .num a, .num b => .ok (decide (a ≤ b))
  | .num _, .dev t => if containsDev t then .ok true else .error .invalidVersionStr
  | .dev s, .num _ => if containsDev s then .ok false else .error .invalidVersionStr
  | .dev s, .dev t =>
    if containsDev t && containsDev s then .error .twoDevCompare
    else if containsDev t then .ok true
    else .error .invalidVersionStr

/-- Python `x > y` on two components (`VersionMeta.__gt__`, with reflection). -/
def vgt : VComp → VComp → Except PyErr Bool
  | .num a, .num b => .ok (decide (a > b))
  | .num _, .dev t => if containsDev t then .ok false else .error .invalidVersionStr
  | .dev s, .num _ => if containsDev s then .ok true else .error .invalidVersionStr
  | .dev s, .dev t =>
    if containsDev t && containsDev s then .error .twoDevCompare
    else if containsDev t then .ok false
    else .error .invalidVersionStr

/-- Python `x >= y` on two components (`VersionMeta.__ge__`, with reflection). -/
def vge : VComp → VComp → Except PyErr Bool
  | .num a, .num b => .ok (decide (a ≥ b))
  | .num _, .dev t => if containsDev t then .ok false else .error .invalidVersionStr
  | .dev s, .num _ => if containsDev s then .ok true else .error .invalidVersionStr
  | .dev s, .dev t =>
    if containsDev t && containsDev s then .error .twoDevCompare
    else if containsDev t then .ok false
    else .error .invalidVersionStr

/-- `valid_version_string(version)`: a `str` is valid when, after lowercasing
and deleting every `"dev"` and `"."`, only digits remain (at least one), or the
lowercased text is exactly `"dev"`; any `int` is valid. -/
def valid_version_string : PyVal → Bool
  | .str s =>
    pyIsDigitStr (removeDots (removeDev (pyLower s))) || pyLower s == devChars
  | .int _ => true

/-- `VersionNumber.__new__`: a digit string (after `strip()`) becomes a
`myint`; any other string passing `valid_version_string` becomes a `mystr`;
other strings raise `ValueError`; an `int` becomes a `myint`. -/
def VersionNumber : PyVal → Except PyErr VComp
  | .str s =>
    if pyIsDigitStr (pyStrip s) then .ok (.num (strToNat (pyStrip s) : Int))
    else if valid_version_string (.str s) then .ok (.dev s)
    else .error .valueError
  | .int i => .ok (.num i)

/-- The list comprehension `[VersionNumber(num) for num in version_list]`:
left to right, aborting at the first raised error. -/
def mapVN : List PyVal → Except PyErr (List VComp)
  | [] => .ok []
  | v :: vs => do
    let c ← VersionNumber v
    let cs ← mapVN vs
    .ok (c :: cs)

/-- The `while len(version_list) < 3: version_list.append(VersionNumber(0))`
loop: right-pad with zero components up to length three. -/
def padTo3 : List VComp → List VComp
  | [] => [.num 0, .num 0, .num 0]
  | [a] => [a, .num 0, .num 0]
  | [a, b] => [a, b, .num 0]
  | l => l

/-- `sanitize_version_tuple(version_tuple)`: wrap every element through
`VersionNumber`, then right-pad with zeros to three components. -/
def sanitize_version_tuple (version_tuple : List PyVal) : Except PyErr (List VComp) := do
  let cs ← mapVN version_tuple
  .ok (padTo3 cs)

/-- The `while len(version_list) < 3: version_list.append("0")` loop of
`sanitize_version_string`. -/
def padStrTo3 : List PyStr → List PyStr
  | [] => [['0'], ['0'], ['0']]
  | [a] => [a, ['0'], ['0']]
  | [a, b] => [a, b, ['0']]
  | l => l

/-- `sanitize_version_string(version_string)`: split on `.`, right-pad the
pieces with `"0"` to three, and re-join with `.`. -/
def sanitize_version_string (version_string : PyStr) : PyStr :=
  joinDot (padStrTo3 (splitOnDot version_string))

/-- The generator `all(num >= VersionNumber(0) for num in version_tuple)`:
short-circuits at the first `False`, propagates a raised comparison error. -/
def allGeZero : List VComp → Except PyErr Bool
  | [] => .ok true
  | c :: cs => do
    let b ← vge c (.num 0)
    if b then allGeZero cs else .ok false

/-- `version_string_as_tuple(version_string)`: split on `.` and wrap each
piece through `VersionNumber`, check every component is `>= 0`; any
`ValueError` raised inside the `try` block (and an `all(...)` result of
`False`) becomes a `VersionSyntaxError`; finally re-sanitize the tuple. -/
def version_string_as_tuple (version_string : PyStr) : Except PyErr (List VComp) :=
  match (do
      let cs ← mapVN ((splitOnDot version_string).map PyVal.str)
      let ok ← allGeZero cs
      if ok then pure cs else .error PyErr.valueError :
      Except PyErr (List VComp)) with
  | .error e => if e.isValueError then .error .versionSyntaxError else .error e
  | .ok cs => sanitize_version_tuple (cs.map VComp.toPyVal)

/-- Python `str(value)` on a tuple element. -/
def pyValStr : PyVal → PyStr
  | .int i => intToStr i
  | .str s => s

/-- The element test of `version_tuple_as_string`:
`(isinstance(num, int) and num >= 0) or
 (isinstance(num, str) and "dev" in num and len(num) <= 6)`. -/
def tupleElemOk : PyVal → Bool
  | .int i => decide (0 ≤ i)
  | .str s => containsDev s && decide (s.length ≤ 6)

/-- `version_tuple_as_string(version_tuple)`: raise `VersionSyntaxError`
unless every element is a non-negative `int` or a `str` containing `"dev"`
of length at most 6; otherwise join the elements' `str(...)` forms with `.`
and zero-pad the resulting string. -/
def version_tuple_as_string (version_tuple : List PyVal) : Except PyErr PyStr :=
  if version_tuple.all tupleElemOk then
    .ok (sanitize_version_string (joinDot (version_tuple.map pyValStr)))
  else .error .versionSyntaxError

/-- A version argument that is a Python `str` or `tuple`. -/
inductive VerVal where
  | str (s : PyStr)
  | tup (t : List PyVal)
deriving DecidableEq, Repr

/-- The `server_version` argument of `server_meets_version`: either a
string/tuple, or some other object, which may or may not expose a
`_server_version` attribute (itself a string or tuple). -/
inductive SmvArg where
  | ver (v : VerVal)
  | obj (attr : Option VerVal)
deriving DecidableEq, Repr

/-- The normalization applied to each side of `server_meets_version`:
`version_string_as_tuple` for a string, `sanitize_version_tuple` otherwise. -/
def normalizeVer : VerVal → Except PyErr (List VComp)
  | .str s => version_string_as_tuple s
  | .tup t => sanitize_version_tuple t

/-- The comparison loop of `server_meets_version`, over
`enumerate(zip(server_version, required_version), start=1)`: equal components
continue (except at index 3, where equality returns `True`); a greater server
component returns `True`; a smaller one returns `False`; falling off the end
of the `zip` returns Python `None` (modelled as `none`). -/
def smvLoop : Nat → List VComp → List VComp → Except PyErr (Option Bool)
  | _, [], _ => .ok none
  | _, _ :: _, [] => .ok none
  | i, x :: xs, y :: ys =>
    if veq x y && !(i == 3) then smvLoop (i + 1) xs ys
    else if veq x y && i == 3 then .ok (some true)
    else do
      let gt ← vgt x y
      if gt then .ok (some true)
      else do
        let lt ← vlt x y
        if lt then .ok (some false)
        else smvLoop (i + 1) xs ys

/-- `server_meets_version(server_version, required_version)`: resolve a
non-string, non-tuple server argument through its `_server_version`
attribute (raising `ValueError` when it is missing), normalize both sides,
then run the comparison loop. -/
def server_meets_version (server_version : SmvArg) (required_version : VerVal) :
    Except PyErr (Option Bool) := do
  let sv ← match server_version with
    | .ver v => pure v
    | .obj (some v) => pure v
    | .obj none => .error PyErr.valueError
  let s ← normalizeVer sv
  let r ← normalizeVer required_version
  smvLoop 1 s r

/-- Python `a == b` between a component and a plain `int` (map-key lookup):
a `myint` compares by integer value; a `mystr` is never equal to an `int`. -/
def compEqInt : VComp → Int → Bool
  | .num a, b => a == b
  | .dev _, _ => false

/-- Python tuple equality between a sanitized version tuple and a plain
integer-tuple dictionary key. -/
def keyMatches (key : List Int) (mv : List VComp) : Bool :=
  key.length == mv.length && (mv.zip key).all (fun p => compEqInt p.1 p.2)

/-- `VERSION_MAP[min_version]`: return the stored label, raising `KeyError`
when no key equals the tuple. -/
def dictLookup (m : List (List Int × PyStr)) (mv : List VComp) : Except PyErr PyStr :=
  match m.find? (fun e => keyMatches e.1 mv) with
  | some e => .ok e.2
  | none => .error .keyError

/-- The f-string
`f"Class method ``{func.__name__}`` requires server version >= {version_tuple_as_string(min_version)}."`. -/
def genericVersionMsg (funcName verStr : PyStr) : PyStr :=
  "Class method ``".data ++ funcName ++ "`` requires server version >= ".data
    ++ verStr ++ ['.']

/-- The f-string
`f"Class method ``{func.__name__}`` requires server version >= {VERSION_MAP[min_version]}."`. -/
def mappedVersionMsg (funcName label : PyStr) : PyStr :=
  "Class method ``".data ++ funcName ++ "`` requires server version >= ".data
    ++ label ++ ['.']

/-- The object a decorated method is invoked on: it may or may not expose a
`_server_version` attribute, and carries arbitrary further state. -/
structure GuardSelf (σ : Type) where
  server_version : Option VerVal
  payload : σ

/-- `requires_version(version, VERSION_MAP)` applied to a method `func` and
then invoked on `self` with `args`: compute `min_version` from the decorator
argument (tuple → `sanitize_version_tuple`, otherwise
`version_string_as_tuple`); inside the wrapper, raise `AttributeError` when
`self` lacks `_server_version`; when `server_meets_version` is not `True`,
raise a `VersionError` (generic message when `VERSION_MAP` is `None` or
empty, otherwise with the label `VERSION_MAP[min_version]`); otherwise call
`func(self, *args)` and return its result unchanged. -/
def requires_version_call {σ α ρ : Type} (funcName : PyStr) (version : VerVal)
    (VERSION_MAP : Option (List (List Int × PyStr)))
    (func : GuardSelf σ → α → ρ) (self : GuardSelf σ) (args : α) :
    Except PyErr ρ := do
  -- `sanitize_version_tuple(version) if isinstance(version, tuple) else
  -- version_string_as_tuple(version)`, i.e. the same dispatch as `normalizeVer`
  let min_version ← normalizeVer version
  match self.server_version with
  | none => .error PyErr.attributeError
  | some sv =>
    let r ← server_meets_version (.ver sv) (.tup (min_version.map VComp.toPyVal))
    if r = some true then
      .ok (func self args)
    else
      match VERSION_MAP with
      | none => do
        let vs ← version_tuple_as_string (min_version.map VComp.toPyVal)
        .error (PyErr.versionError (genericVersionMsg funcName vs))
      | some m =>
        if m.isEmpty then do
          let vs ← version_tuple_as_string (min_version.map VComp.toPyVal)
          .error (PyErr.versionError (genericVersionMsg funcName vs))
        else do
          let label ← dictLookup m min_version
          .error (PyErr.versionError (mappedVersionMsg funcName label))

/-! ### Claim-side (specification-worded) definitions -/

/-- The spec's dev-marker grammar (data model, §3): the literal `"dev"`
optionally followed by up to 3 additional characters, total length at most
6 characters. -/
def specDevMarker (s : PyStr) : Bool :=
  strStartsWith devChars s && decide (s.length ≤ 6)

/-- Standard lexicographic tuple ordering `(a,b,c) >= (d,e,f)`: major
compared first, then minor, then patch; all three equal counts as `>=`. -/
def specLexGe (a b c d e f : Nat) : Prop :=
  a > d ∨ (a = d ∧ (b > e ∨ (b = e ∧ c ≥ f)))

/-- Amended acceptable element for formatting a version tuple: a
non-negative integer, or a string that contains `"dev"` as a substring
(witnessed by an explicit decomposition) and has length at most 6. -/
def specTupleElemOk : PyVal → Prop
  | .int i => 0 ≤ i
  | .str s => (∃ pre post, s = pre ++ devChars ++ post) ∧ s.length ≤ 6

/-- Amended dev-acceptance grammar for component parsing: after lowercasing
and deleting every occurrence of `"dev"` and then every `"."`, a nonempty
all-digit string remains, or the lowercased text is exactly `"dev"`. -/
def specDevAccept (s : PyStr) : Bool :=
  (decide (0 < (removeDots (removeDev (pyLower s))).length)
      && (removeDots (removeDev (pyLower s))).all Char.isDigit)
    || pyLower s == devChars

/-! ### Supporting lemmas about the string machinery -/

theorem natDigitsRevAux_lt10 : ∀ fuel n d, d ∈ natDigitsRevAux fuel n → d < 10 := by
  intro fuel
  induction fuel with
  | zero => intro n d hd; cases n <;> simp [natDigitsRevAux] at hd
  | succ f ih =>
    intro n d hd
    cases n with
    | zero => simp [natDigitsRevAux] at hd
    | succ m =>
      simp only [natDigitsRevAux, List.mem_cons] at hd
      rcases hd with h | h
      · exact h ▸ Nat.mod_lt _ (by omega)
      · exact ih _ _ h

theorem natDigitsRevAux_ne_nil (fuel m : Nat) : natDigitsRevAux (fuel + 1) (m + 1) ≠ [] := by
  simp [natDigitsRevAux]

theorem mem_natToStr (n : Nat) : ∀ c ∈ natToStr n, ∃ d, d < 10 ∧ c = Nat.digitChar d := by
  intro c hc
  unfold natToStr at hc
  by_cases h : n = 0
  · simp [h] at hc
    exact ⟨0, by omega, by simp [hc]; rfl⟩
  · simp only [h, if_false, List.mem_reverse, List.mem_map] at hc
    obtain ⟨d, hd, rfl⟩ := hc
    exact ⟨d, natDigitsRevAux_lt10 _ _ _ hd, rfl⟩

theorem digitChar_not_space : ∀ d, d < 10 → pyIsSpace (Nat.digitChar d) = false := by decide

theorem digitChar_isDigit : ∀ d, d < 10 → (Nat.digitChar d).isDigit = true := by decide

theorem digitChar_ne_dot : ∀ d, d < 10 → Nat.digitChar d ≠ '.' := by decide

theorem digitChar_toNat : ∀ d, d < 10 → (Nat.digitChar d).toNat - 48 = d := by decide

theorem natToStr_ne_nil (n : Nat) : natToStr n ≠ [] := by
  unfold natToStr
  by_cases h : n = 0
  · simp [h]
  · obtain ⟨m, rfl⟩ := Nat.exists_eq_succ_of_ne_zero h
    simp only [h, if_false]
    intro hcon
    have := natDigitsRevAux_ne_nil m m
    simp only [natDigitsRev] at hcon
    rw [List.reverse_eq_nil_iff, List.map_eq_nil_iff] at hcon
    exact this hcon

theorem dropWhile_eq_self_of_not (p : Char → Bool) (l : PyStr)
    (h : ∀ c ∈ l, p c = false) : l.dropWhile p = l := by
  cases l with
  | nil => rfl
  | cons c cs => simp [List.dropWhile, h c (by simp)]

theorem pyStrip_eq_self (s : PyStr) (h : ∀ c ∈ s, pyIsSpace c = false) :
    pyStrip s = s := by
  unfold pyStrip
  rw [dropWhile_eq_self_of_not _ _ h,
    dropWhile_eq_self_of_not _ _ (fun c hc => h c (List.mem_reverse.mp hc)),
    List.reverse_reverse]

theorem pyStrip_natToStr (n : Nat) : pyStrip (natToStr n) = natToStr n := by
  refine pyStrip_eq_self _ (fun c hc => ?_)
  obtain ⟨d, hd, rfl⟩ := mem_natToStr n c hc
  exact digitChar_not_space d hd

theorem pyIsDigitStr_natToStr (n : Nat) : pyIsDigitStr (natToStr n) = true := by
  unfold pyIsDigitStr
  rw [Bool.and_eq_true]
  constructor
  · simpa [List.isEmpty_iff] using natToStr_ne_nil n
  · rw [List.all_eq_true]
    intro c hc
    obtain ⟨d, hd, rfl⟩ := mem_natToStr n c hc
    exact digitChar_isDigit d hd

theorem foldl_digitChars (ds : List Nat) : ∀ acc : Nat, (∀ d ∈ ds, d < 10) →
    (ds.map Nat.digitChar).foldl (fun a c => 10 * a + (c.toNat - 48)) acc =
      ds.foldl (fun a d => 10 * a + d) acc := by
  induction ds with
  | nil => intro acc _; rfl
  | cons d ds ih =>
    intro acc h
    simp only [List.map_cons, List.foldl_cons]
    rw [digitChar_toNat d (h d (by simp))]
    exact ih _ (fun x hx => h x (by simp [hx]))

theorem valDigits_aux : ∀ fuel n, n ≤ fuel →
    (natDigitsRevAux fuel n).reverse.foldl (fun a d => 10 * a + d) 0 = n := by
  intro fuel
  induction fuel with
  | zero => intro n hn; interval_cases n; rfl
  | succ f ih =>
    intro n hn
    cases n with
    | zero => rfl
    | succ m =>
      have hdiv : (m + 1) / 10 < m + 1 := Nat.div_lt_self (by omega) (by omega)
      simp only [natDigitsRevAux, List.reverse_cons, List.foldl_append, List.foldl_cons,
        List.foldl_nil]
      rw [ih ((m + 1) / 10) (by omega)]
      omega

theorem strToNat_natToStr (n : Nat) : strToNat (natToStr n) = n := by
  by_cases h : n = 0
  · subst h; rfl
  · unfold strToNat natToStr
    simp only [h, if_false]
    rw [← List.map_reverse]
    simp only [natDigitsRev]
    rw [foldl_digitChars _ 0 (fun d hd => natDigitsRevAux_lt10 _ _ _ (List.mem_reverse.mp hd))]
    exact valDigits_aux n n (le_refl n)

theorem intToStr_natCast (n : Nat) : intToStr (n : Int) = natToStr n := by
  unfold intToStr
  simp [Int.toNat_natCast]

theorem splitOnDot_ne_nil (s : PyStr) : splitOnDot s ≠ [] := by
  cases s with
  | nil => simp [splitOnDot]
  | cons c cs =>
    by_cases h : c = '.'
    · simp [splitOnDot, h]
    · simp only [splitOnDot, h, if_false]
      cases splitOnDot cs <;> simp [consHead]

theorem splitOnDot_no_dot (p : PyStr) (h : '.' ∉ p) : splitOnDot p = [p] := by
  induction p with
  | nil => rfl
  | cons c cs ih =>
    have hc : c ≠ '.' := fun hcon => h (by simp [hcon])
    have hcs : '.' ∉ cs := fun hcon => h (by simp [hcon])
    simp only [splitOnDot, hc, if_false, ih hcs, consHead]

theorem splitOnDot_append (p : PyStr) (h : '.' ∉ p) (r : PyStr) :
    splitOnDot (p ++ '.' :: r) = p :: splitOnDot r := by
  induction p with
  | nil => simp [splitOnDot]
  | cons c cs ih =>
    have hc : c ≠ '.' := fun hcon => h (by simp [hcon])
    have hcs : '.' ∉ cs := fun hcon => h (by simp [hcon])
    rw [List.cons_append]
    simp only [splitOnDot, hc, if_false]
    rw [ih hcs]
    rfl

theorem splitOnDot_joinDot (ps : List PyStr) (hne : ps ≠ [])
    (hdot : ∀ p ∈ ps, '.' ∉ p) : splitOnDot (joinDot ps) = ps := by
  induction ps with
  | nil => exact absurd rfl hne
  | cons p ps ih =>
    cases ps with
    | nil => exact splitOnDot_no_dot p (hdot p (by simp))
    | cons q qs =>
      rw [show joinDot (p :: q :: qs) = p ++ '.' :: joinDot (q :: qs) from rfl]
      rw [splitOnDot_append p (hdot p (by simp))]
      rw [ih (by simp) (fun x hx => hdot x (List.mem_cons_of_mem _ hx))]

theorem strStartsWith_iff (pat s : PyStr) :
    strStartsWith pat s = true ↔ ∃ rest, s = pat ++ rest := by
  induction pat generalizing s with
  | nil => simp [strStartsWith]
  | cons p ps ih =>
    cases s with
    | nil => simp [strStartsWith]
    | cons c cs =>
      simp only [strStartsWith, Bool.and_eq_true, beq_iff_eq, ih, List.cons_append,
        List.cons.injEq]
      constructor
      · rintro ⟨rfl, rest, rfl⟩; exact ⟨rest, rfl, rfl⟩
      · rintro ⟨rest, rfl, rfl⟩; exact ⟨rfl, rest, rfl⟩

theorem containsSub_iff (pat s : PyStr) :
    containsSub pat s = true ↔ ∃ pre post, s = pre ++ pat ++ post := by
  induction s with
  | nil =>
    simp only [containsSub, List.isEmpty_iff]
    constructor
    · rintro rfl; exact ⟨[], [], rfl⟩
    · rintro ⟨pre, post, hcon⟩
      rcases List.append_eq_nil.mp (List.append_eq_nil.mp hcon.symm).1 with ⟨-, h2⟩
      exact h2
  | cons c cs ih =>
    simp only [containsSub, Bool.or_eq_true, strStartsWith_iff, ih]
    constructor
    · rintro (⟨rest, hr⟩ | ⟨pre, post, hp⟩)
      · exact ⟨[], rest, by simp [hr]⟩
      · exact ⟨c :: pre, post, by simp [hp]⟩
    · rintro ⟨pre, post, hp⟩
      cases pre with
      | nil => exact Or.inl ⟨post, by simpa using hp⟩
      | cons x xs =>
        simp only [List.cons_append, List.cons.injEq] at hp
        exact Or.inr ⟨xs, post, hp.2⟩

theorem containsSub_append_left (pat b : PyStr) :
    containsSub pat (pat ++ b) = true := by
  rw [containsSub_iff]; exact ⟨[], b, rfl⟩

theorem containsSub_of_append (pat a b : PyStr) :
    containsSub pat (a ++ pat ++ b) = true := by
  rw [containsSub_iff]; exact ⟨a, b, rfl⟩

theorem containsDev_of_startsWith (s : PyStr) (h : strStartsWith devChars s = true) :
    containsDev s = true := by
  obtain ⟨rest, rfl⟩ := (strStartsWith_iff _ _).mp h
  exact containsSub_append_left _ _

/-! ### Claim theorems -/

/-- C9: an observed-version argument that is neither a string nor a tuple
and lacks a `_server_version` attribute makes `server_meets_version` raise
`ValueError` (the module's InvalidInput error) for every required version;
if such an object does expose the attribute, its value is used as the
observed version: the call behaves exactly as if the attribute's value had
been passed directly. -/
theorem C9_server_version_attribute (req : VerVal) (v : VerVal) :
    server_meets_version (.obj none) req = .error .valueError ∧
    server_meets_version (.obj (some v)) req = server_meets_version (.ver v) req :=
  ⟨rfl, rfl⟩

/-- C10: tuple inputs containing negative integers are accepted silently:
`sanitize_version_tuple` wraps `-1` into a numeric component without error,
and `server_meets_version((-1,0,0),(0,0,0))` returns `False` instead of
raising, while the equivalent string `"-1.0.0"` is rejected with
`VersionSyntaxError`. -/
theorem C10_negative_tuple_accepted :
    server_meets_version (.ver (.tup [.int (-1), .int 0, .int 0]))
        (.tup [.int 0, .int 0, .int 0]) = .ok (some false) ∧
    version_string_as_tuple ['-', '1', '.', '0', '.', '0'] =
        .error .versionSyntaxError ∧
    sanitize_version_tuple [.int (-1), .int 0, .int 0] =
        .ok [.num (-1), .num 0, .num 0] := by
  refine ⟨?_, ?_, ?_⟩ <;> rfl

theorem smvLoop_num3 (a b c d e f : Int) :
    smvLoop 1 [.num a, .num b, .num c] [.num d, .num e, .num f] =
      .ok (some (if a = d then (if b = e then (if c = f then true else decide (c > f))
        else decide (b > e)) else decide (a > d))) := by
  by_cases h1 : a = d
  · subst h1
    by_cases h2 : b = e
    · subst h2
      by_cases h3 : c = f
      · subst h3; simp [smvLoop, veq, vgt, vlt]
      · by_cases hgt : c > f
        · simp [smvLoop, veq, vgt, vlt, h3, hgt, Bind.bind, Except.bind]
        · have hlt : c < f := by omega
          simp [smvLoop, veq, vgt, vlt, h3, hgt, hlt, Bind.bind, Except.bind]
    · by_cases hgt : b > e
      · simp [smvLoop, veq, vgt, vlt, h2, hgt, Bind.bind, Except.bind]
      · have hlt : b < e := by omega
        simp [smvLoop, veq, vgt, vlt, h2, hgt, hlt, Bind.bind, Except.bind]
  · by_cases hgt : a > d
    · simp [smvLoop, veq, vgt, vlt, h1, hgt, Bind.bind, Except.bind]
    · have hlt : a < d := by omega
      simp [smvLoop, veq, vgt, vlt, h1, hgt, hlt, Bind.bind, Except.bind]

/-- C1: on triples of non-negative integers, `server_meets_version` returns
`True` exactly when the observed triple is greater than or equal to the
required triple in the standard lexicographic tuple order (major first,
then minor, then patch), and returns `False` exactly when it is not. -/
theorem C1_server_meets_version_lexicographic (a b c d e f : Nat) :
    (server_meets_version (.ver (.tup [.int a, .int b, .int c]))
        (.tup [.int d, .int e, .int f]) = .ok (some true) ↔ specLexGe a b c d e f) ∧
    (server_meets_version (.ver (.tup [.int a, .int b, .int c]))
        (.tup [.int d, .int e, .int f]) = .ok (some false) ↔ ¬ specLexGe a b c d e f) := by
  have hrun : server_meets_version (.ver (.tup [.int a, .int b, .int c]))
      (.tup [.int d, .int e, .int f]) =
      smvLoop 1 [.num a, .num b, .num c] [.num d, .num e, .num f] := rfl
  rw [hrun, smvLoop_num3]
  unfold specLexGe
  by_cases h1 : (a : Int) = d <;> by_cases h2 : (b : Int) = e <;> by_cases h3 : (c : Int) = f
  all_goals simp [h1, h2, h3]
  all_goals omega

/-- C3: a Dev component (a string in the spec's dev-marker grammar) compares
strictly greater than every numeric component under every relational
operator, in both operand orders; consequently, for every numeric `n`,
`server_meets_version((0,0,"dev"),(0,0,n))` is `True` and
`server_meets_version((0,0,n),(0,0,"dev"))` is `False` (so in particular for
all `n` up to 999999). -/
theorem C3_dev_above_numeric (s : PyStr) (n : Nat) (h : specDevMarker s = true) :
    (vlt (.dev s) (.num n) = .ok false ∧ vle (.dev s) (.num n) = .ok false ∧
     vgt (.dev s) (.num n) = .ok true ∧ vge (.dev s) (.num n) = .ok true ∧
     vlt (.num n) (.dev s) = .ok true ∧ vle (.num n) (.dev s) = .ok true ∧
     vgt (.num n) (.dev s) = .ok false ∧ vge (.num n) (.dev s) = .ok false) ∧
    server_meets_version (.ver (.tup [.int 0, .int 0, .str devChars]))
        (.tup [.int 0, .int 0, .int n]) = .ok (some true) ∧
    server_meets_version (.ver (.tup [.int 0, .int 0, .int n]))
        (.tup [.int 0, .int 0, .str devChars]) = .ok (some false) := by
  have hcd : containsDev s = true := by
    unfold specDevMarker at h
    simp only [Bool.and_eq_true] at h
    exact containsDev_of_startsWith s h.1
  exact ⟨⟨by simp [vlt, hcd], by simp [vle, hcd], by simp [vgt, hcd], by simp [vge, hcd],
    by simp [vlt, hcd], by simp [vle, hcd], by simp [vgt, hcd], by simp [vge, hcd]⟩,
    rfl, rfl⟩

theorem C3_dev_above_numeric_witness :
    specDevMarker devChars = true ∧
    server_meets_version (.ver (.tup [.int 0, .int 0, .str devChars]))
        (.tup [.int 0, .int 0, .int ((999999 : Nat) : Int)]) = .ok (some true) :=
  ⟨by decide, (C3_dev_above_numeric devChars 999999 (by decide)).2.1⟩

/-- C4: for two Dev components (strings in the spec's dev-marker grammar),
equality holds exactly when the texts are identical, inequality is its
negation, and every ordering operator raises the "Two 'dev' versions cannot
be compared against." `ValueError` (the spec's InvalidComparison) instead of
returning a boolean; the raised error carries no partial boolean result. -/
theorem C4_dev_vs_dev (s t : PyStr) (hs : specDevMarker s = true)
    (ht : specDevMarker t = true) :
    (veq (.dev s) (.dev t) = true ↔ s = t) ∧
    (vne (.dev s) (.dev t) = true ↔ s ≠ t) ∧
    vlt (.dev s) (.dev t) = .error .twoDevCompare ∧
    vle (.dev s) (.dev t) = .error .twoDevCompare ∧
    vgt (.dev s) (.dev t) = .error .twoDevCompare ∧
    vge (.dev s) (.dev t) = .error .twoDevCompare := by
  have hcs : containsDev s = true := by
    unfold specDevMarker at hs
    simp only [Bool.and_eq_true] at hs
    exact containsDev_of_startsWith s hs.1
  have hct : containsDev t = true := by
    unfold specDevMarker at ht
    simp only [Bool.and_eq_true] at ht
    exact containsDev_of_startsWith t ht.1
  refine ⟨?_, ?_, ?_, ?_, ?_, ?_⟩ <;> simp [veq, vne, vlt, vle, vgt, vge, hcs, hct]

theorem C4_dev_vs_dev_witness :
    specDevMarker devChars = true ∧ specDevMarker ['d', 'e', 'v', '1'] = true ∧
    vlt (.dev devChars) (.dev ['d', 'e', 'v', '1']) = .error .twoDevCompare :=
  ⟨by decide, by decide, (C4_dev_vs_dev devChars ['d', 'e', 'v', '1']
    (by decide) (by decide)).2.2.1⟩

theorem specDevAccept_eq (s : PyStr) :
    specDevAccept s = valid_version_string (.str s) := by
  have h : ∀ L : PyStr,
      ((decide (0 < L.length) && L.all Char.isDigit) || pyLower s == devChars) =
        ((!L.isEmpty && L.all Char.isDigit) || pyLower s == devChars) := by
    intro L; cases L <;> simp
  exact h (removeDots (removeDev (pyLower s)))

/-- C5 counterexample: the seven-character string `"dev1234"` is outside the
claimed dev-marker grammar (`"dev"` plus at most 3 further characters, total
length at most 6) and is not a digit string, yet `VersionNumber` accepts it
and produces a Dev component instead of failing. -/
theorem C5_counterexample :
    VersionNumber (.str ['d', 'e', 'v', '1', '2', '3', '4']) =
        .ok (.dev ['d', 'e', 'v', '1', '2', '3', '4']) ∧
    specDevMarker ['d', 'e', 'v', '1', '2', '3', '4'] = false ∧
    pyIsDigitStr (pyStrip ['d', 'e', 'v', '1', '2', '3', '4']) = false := by
  refine ⟨?_, ?_, ?_⟩ <;> rfl

/-- C5 amended: parsing a component from text yields a Numeric component
holding the numeric value of the whitespace-trimmed text exactly when that
trimmed text is all digits; otherwise it yields a Dev component holding the
original (untrimmed) text exactly when the lowercased text, after deleting
every occurrence of `"dev"` and then every `"."`, is a nonempty digit
string, or the lowercased text is exactly `"dev"` (no trimming and no
length bound on this path); in every remaining case it raises `ValueError`
(surfaced as `VersionSyntaxError` by the string-parsing entry point).  No
string outside this grammar produces a component. -/
theorem C5_amended_parse_component (s : PyStr) :
    (VersionNumber (.str s) = .ok (.num (strToNat (pyStrip s))) ↔
       pyIsDigitStr (pyStrip s) = true) ∧
    (VersionNumber (.str s) = .ok (.dev s) ↔
       pyIsDigitStr (pyStrip s) = false ∧ specDevAccept s = true) ∧
    (VersionNumber (.str s) = .error .valueError ↔
       pyIsDigitStr (pyStrip s) = false ∧ specDevAccept s = false) := by
  have hacc := specDevAccept_eq s
  by_cases hd : pyIsDigitStr (pyStrip s) = true
  · simp [VersionNumber, hd]
  · by_cases hv : valid_version_string (.str s) = true
    · simp [VersionNumber, hd, hv, hacc]
    · simp [VersionNumber, hd, hv, hacc]

theorem tupleElemOk_iff (v : PyVal) : tupleElemOk v = true ↔ specTupleElemOk v := by
  cases v with
  | int i => simp [tupleElemOk, specTupleElemOk]
  | str s =>
    simp [tupleElemOk, specTupleElemOk, containsDev, containsSub_iff,
      Bool.and_eq_true]

/-- C6 counterexample: the element `"1dev"` is not a non-negative integer
and is not a well-formed dev marker in the claimed grammar (it does not
start with `"dev"`), so the claim requires `version_tuple_as_string` to fail
with `VersionSyntaxError` on `("1dev",)`; the code instead formats it
successfully, because its check only requires `"dev"` to occur as a
substring. -/
theorem C6_counterexample :
    version_tuple_as_string [.str ['1', 'd', 'e', 'v']] =
        .ok ['1', 'd', 'e', 'v', '.', '0', '.', '0'] ∧
    specDevMarker ['1', 'd', 'e', 'v'] = false := ⟨rfl, rfl⟩

/-- C6 amended: `version_tuple_as_string` fails (necessarily with
`VersionSyntaxError`) exactly when some component is neither a non-negative
integer nor a string that contains `"dev"` as a substring with length at
most 6; in particular every tuple containing a negative integer is
rejected, and every tuple of non-negative integers is formatted
successfully. -/
theorem C6_amended_format_errors (t : List PyVal) :
    (version_tuple_as_string t = .error .versionSyntaxError ↔
       ¬ (∀ v ∈ t, specTupleElemOk v)) ∧
    ((∃ s, version_tuple_as_string t = .ok s) ↔ ∀ v ∈ t, specTupleElemOk v) := by
  have hiff : t.all tupleElemOk = true ↔ ∀ v ∈ t, specTupleElemOk v := by
    rw [List.all_eq_true]
    exact forall_congr' fun v => forall_congr' fun _ => tupleElemOk_iff v
  by_cases hall : t.all tupleElemOk = true
  · constructor
    · simp only [version_tuple_as_string, hall, if_true]
      simp only [reduceCtorEq, false_iff, not_not]
      exact hiff.mp hall
    · simp only [version_tuple_as_string, hall, if_true]
      simp only [Except.ok.injEq, exists_eq', true_iff]
      exact hiff.mp hall
  · have hnall : ¬ ∀ v ∈ t, specTupleElemOk v := fun hcon => hall (hiff.mpr hcon)
    constructor
    · simp [version_tuple_as_string, hall, hnall]
    · simp [version_tuple_as_string, hall, hnall]

/-- C7 counterexample: a guard declared with minimum `"0.2.1"` and a
*provided but empty* version map, invoked by a context at version `"0.2.0"`,
does not propagate any lookup failure for the missing entry: because
`if not VERSION_MAP` treats an empty dictionary like an absent one, it
silently falls back to the generic message, contradicting the claim that a
provided map lacking the exact tuple propagates a lookup error. -/
theorem C7_counterexample :
    requires_version_call "foo".data (.str ['0', '.', '2', '.', '1']) (some [])
        (fun (_ : GuardSelf Unit) (_ : Unit) => (0 : Nat))
        ⟨some (.str ['0', '.', '2', '.', '0']), ()⟩ () =
      .error (.versionError
        (genericVersionMsg "foo".data ['0', '.', '2', '.', '1'])) ∧
    (.error (.versionError (genericVersionMsg "foo".data ['0', '.', '2', '.', '1']))
        : Except PyErr Nat) ≠ .error .keyError := by
  exact ⟨rfl, by simp⟩

theorem ebind_ok {e a b : Type} (x : a) (f : a → Except e b) :
    (Except.ok x >>= f) = f x := rfl

theorem ebind_err {e a b : Type} (err : e) (f : a → Except e b) :
    ((Except.error err : Except e a) >>= f) = .error err := rfl

/-- C7 amended: when a guarded operation is invoked against a context whose
version does not meet the minimum and a *non-empty* version map was
provided, the guard fails with a `VersionError` whose message contains the
operation's name and the map's label for the exact minimum-version tuple;
if the non-empty map lacks an entry for that exact tuple, the lookup
failure propagates as a `KeyError` rather than silently falling back to the
generic message.  (A provided empty map behaves as if no map were given.) -/
theorem C7_amended_guard_messages {σ α ρ : Type} (fn : PyStr) (ver : VerVal)
    (m : List (List Int × PyStr)) (L : PyStr) (f : GuardSelf σ → α → ρ)
    (self : GuardSelf σ) (args : α) (minv : List VComp) (sv : VerVal)
    (hmin : normalizeVer ver = .ok minv)
    (hsv : self.server_version = some sv)
    (hfail : server_meets_version (.ver sv) (.tup (minv.map VComp.toPyVal)) =
       .ok (some false))
    (hm : m ≠ []) :
    (dictLookup m minv = .ok L →
       requires_version_call fn ver (some m) f self args =
         .error (.versionError (mappedVersionMsg fn L)) ∧
       containsSub L (mappedVersionMsg fn L) = true ∧
       containsSub fn (mappedVersionMsg fn L) = true) ∧
    (dictLookup m minv = .error .keyError →
       requires_version_call fn ver (some m) f self args = .error .keyError) := by
  have hempty : m.isEmpty = false := by
    cases m with
    | nil => exact absurd rfl hm
    | cons a as => rfl
  have hrun : ∀ g : GuardSelf σ → α → ρ,
      requires_version_call fn ver (some m) g self args =
        (dictLookup m minv >>=
          fun label => .error (.versionError (mappedVersionMsg fn label))) := by
    intro g
    simp only [requires_version_call, hmin, ebind_ok, hsv, hfail, hempty,
      Option.some.injEq, Bool.false_eq_true, if_false, reduceCtorEq, reduceIte]
  constructor
  · intro hL
    refine ⟨?_, ?_, ?_⟩
    · rw [hrun f, hL, ebind_ok]
    · rw [show mappedVersionMsg fn L =
        ("Class method ``".data ++ fn ++ "`` requires server version >= ".data) ++ L
          ++ ['.'] by simp [mappedVersionMsg, List.append_assoc]]
      exact containsSub_of_append L _ _
    · rw [show mappedVersionMsg fn L =
        "Class method ``".data ++ fn
          ++ ("`` requires server version >= ".data ++ L ++ ['.']) by
        simp [mappedVersionMsg, List.append_assoc]]
      exact containsSub_of_append fn _ _
  · intro hL
    rw [hrun f, hL, ebind_err]

theorem C7_amended_guard_messages_witness :
    normalizeVer (.str ['0', '.', '2', '.', '1']) = .ok [.num 0, .num 2, .num 1] ∧
    ([([0, 2, 1], "20XYRZ".data)] : List (List Int × PyStr)) ≠ [] ∧
    requires_version_call "foo".data (.str ['0', '.', '2', '.', '1'])
        (some [([0, 2, 1], "20XYRZ".data)])
        (fun (_ : GuardSelf Unit) (_ : Unit) => (0 : Nat))
        ⟨some (.str ['0', '.', '2', '.', '0']), ()⟩ () =
      .error (.versionError (mappedVersionMsg "foo".data "20XYRZ".data)) ∧
    containsSub "20XYRZ".data (mappedVersionMsg "foo".data "20XYRZ".data) = true := by
  have h := (C7_amended_guard_messages "foo".data (.str ['0', '.', '2', '.', '1'])
    [([0, 2, 1], "20XYRZ".data)] "20XYRZ".data
    (fun (_ : GuardSelf Unit) (_ : Unit) => (0 : Nat))
    ⟨some (.str ['0', '.', '2', '.', '0']), ()⟩ ()
    [.num 0, .num 2, .num 1] (.str ['0', '.', '2', '.', '0'])
    rfl rfl rfl (by simp)).1 rfl
  exact ⟨rfl, by simp, h.1, h.2.1⟩

/-- C8: when the guarded context's version meets the minimum, the guard
returns exactly the wrapped operation's value on the original `self` and
arguments (`.ok (f self args)`), so the operation is invoked once and its
result passed through unchanged; when the version check does not return
`True`, the guard's outcome is an error that is identical for every wrapped
operation — the wrapped operation is never invoked and contributes nothing
to the result. -/
theorem C8_guard_invokes_wrapped {σ α ρ : Type} (fn : PyStr) (ver : VerVal)
    (VM : Option (List (List Int × PyStr))) (f : GuardSelf σ → α → ρ)
    (self : GuardSelf σ) (args : α) (minv : List VComp) (sv : VerVal)
    (hmin : normalizeVer ver = .ok minv)
    (hsv : self.server_version = some sv) :
    (server_meets_version (.ver sv) (.tup (minv.map VComp.toPyVal)) =
        .ok (some true) →
      requires_version_call fn ver VM f self args = .ok (f self args)) ∧
    (∀ r, server_meets_version (.ver sv) (.tup (minv.map VComp.toPyVal)) = .ok r →
      r ≠ some true →
      (∀ g : GuardSelf σ → α → ρ,
         requires_version_call fn ver VM g self args =
           requires_version_call fn ver VM f self args) ∧
      ∃ e, requires_version_call fn ver VM f self args = .error e) := by
  constructor
  · intro hok
    simp only [requires_version_call, hmin, ebind_ok, hsv, hok, reduceIte]
  · intro r hr hne
    have hrun : ∀ g : GuardSelf σ → α → ρ,
        requires_version_call fn ver VM g self args =
          (match VM with
           | none =>
             version_tuple_as_string (minv.map VComp.toPyVal) >>=
               fun vs => .error (.versionError (genericVersionMsg fn vs))
           | some m =>
             if m.isEmpty then
               version_tuple_as_string (minv.map VComp.toPyVal) >>=
                 fun vs => .error (.versionError (genericVersionMsg fn vs))
             else
               dictLookup m minv >>=
                 fun label => .error (.versionError (mappedVersionMsg fn label))) := by
      intro g
      simp only [requires_version_call, hmin, ebind_ok, hsv, hr, if_neg hne]
    refine ⟨fun g => by rw [hrun g, hrun f], ?_⟩
    rw [hrun f]
    cases VM with
    | none =>
      cases hv : version_tuple_as_string (minv.map VComp.toPyVal) with
      | ok vs => exact ⟨.versionError (genericVersionMsg fn vs), rfl⟩
      | error e => exact ⟨e, rfl⟩
    | some m =>
      by_cases hm : m.isEmpty = true
      · simp only [hm, if_true]
        cases hv : version_tuple_as_string (minv.map VComp.toPyVal) with
        | ok vs => exact ⟨.versionError (genericVersionMsg fn vs), rfl⟩
        | error e => exact ⟨e, rfl⟩
      · simp only [hm, if_false]
        cases hv : dictLookup m minv with
        | ok label => exact ⟨.versionError (mappedVersionMsg fn label), rfl⟩
        | error e => exact ⟨e, rfl⟩

theorem C8_guard_invokes_wrapped_witness :
    normalizeVer (.str ['0', '.', '2', '.', '1']) = .ok [.num 0, .num 2, .num 1] ∧
    (⟨some (.str ['1', '.', '0', '.', '0']), ()⟩ :
        GuardSelf Unit).server_version = some (.str ['1', '.', '0', '.', '0']) ∧
    requires_version_call "foo".data (.str ['0', '.', '2', '.', '1']) none
        (fun (_ : GuardSelf Unit) (_ : Unit) => (37 : Nat))
        ⟨some (.str ['1', '.', '0', '.', '0']), ()⟩ () = .ok 37 := by
  refine ⟨rfl, rfl, ?_⟩
  exact (C8_guard_invokes_wrapped "foo".data (.str ['0', '.', '2', '.', '1']) none
    (fun (_ : GuardSelf Unit) (_ : Unit) => (37 : Nat))
    ⟨some (.str ['1', '.', '0', '.', '0']), ()⟩ ()
    [.num 0, .num 2, .num 1] (.str ['1', '.', '0', '.', '0']) rfl rfl).1 rfl

theorem VersionNumber_natToStr (n : Nat) :
    VersionNumber (.str (natToStr n)) = .ok (.num n) := by
  simp [VersionNumber, pyStrip_natToStr, pyIsDigitStr_natToStr, strToNat_natToStr]

theorem natToStr_no_dot (n : Nat) : '.' ∉ natToStr n := by
  intro hmem
  obtain ⟨d, hd, hc⟩ := mem_natToStr n '.' hmem
  exact digitChar_ne_dot d hd hc.symm

theorem roundtrip_triple (a b c : Nat) :
    (version_tuple_as_string [.int (a : Int), .int (b : Int), .int (c : Int)]).bind
        version_string_as_tuple =
      .ok [.num (a : Int), .num (b : Int), .num (c : Int)] := by
  have hok : ([.int (a : Int), .int (b : Int), .int (c : Int)] : List PyVal).all
      tupleElemOk = true := by
    simp [tupleElemOk, Int.natCast_nonneg]
  have hdots : ∀ p ∈ [natToStr a, natToStr b, natToStr c], '.' ∉ p := by
    intro p hp
    simp only [List.mem_cons, List.not_mem_nil, or_false] at hp
    rcases hp with rfl | rfl | rfl <;> exact natToStr_no_dot _
  have hsplit : splitOnDot (joinDot [natToStr a, natToStr b, natToStr c]) =
      [natToStr a, natToStr b, natToStr c] :=
    splitOnDot_joinDot _ (by simp) hdots
  have hfmt : version_tuple_as_string [.int (a : Int), .int (b : Int), .int (c : Int)] =
      .ok (joinDot [natToStr a, natToStr b, natToStr c]) := by
    unfold version_tuple_as_string
    rw [hok]
    simp only [if_true, List.map_cons, List.map_nil, pyValStr, intToStr_natCast]
    unfold sanitize_version_string
    rw [hsplit]
    rfl
  rw [hfmt]
  simp only [Except.bind]
  unfold version_string_as_tuple
  rw [hsplit]
  have hmap : mapVN ([natToStr a, natToStr b, natToStr c].map PyVal.str) =
      .ok [.num (a : Int), .num (b : Int), .num (c : Int)] := by
    simp only [List.map_cons, List.map_nil, mapVN, VersionNumber_natToStr, ebind_ok]
  rw [hmap, ebind_ok]
  have hge : allGeZero [.num (a : Int), .num (b : Int), .num (c : Int)] = .ok true := by
    simp [allGeZero, vge, ebind_ok, Int.natCast_nonneg]
  rw [hge, ebind_ok]
  rfl

/-- C2: for every tuple of 1 to 3 non-negative integers, parsing the
formatted string of the zero-padded tuple reproduces the padded tuple
exactly:
`version_string_as_tuple(version_tuple_as_string(sanitize_version_tuple(t)))
 == sanitize_version_tuple(t)`. -/
theorem C2_roundtrip (t : List Nat) (h1 : t ≠ []) (h2 : t.length ≤ 3) :
    ((sanitize_version_tuple (t.map (fun n => PyVal.int (n : Int)))).bind (fun p =>
        (version_tuple_as_string (p.map VComp.toPyVal)).bind version_string_as_tuple)) =
      sanitize_version_tuple (t.map (fun n => PyVal.int (n : Int))) := by
  rcases t with _ | ⟨a, _ | ⟨b, _ | ⟨c, rest⟩⟩⟩
  · exact absurd rfl h1
  · have hs : sanitize_version_tuple ([a].map fun n => PyVal.int (n : Int)) =
        .ok [.num (a : Int), .num 0, .num 0] := rfl
    rw [hs]
    simp only [Except.bind, List.map_cons, List.map_nil, VComp.toPyVal]
    have h := roundtrip_triple a 0 0
    simpa using h
  · have hs : sanitize_version_tuple ([a, b].map fun n => PyVal.int (n : Int)) =
        .ok [.num (a : Int), .num (b : Int), .num 0] := rfl
    rw [hs]
    simp only [Except.bind, List.map_cons, List.map_nil, VComp.toPyVal]
    have h := roundtrip_triple a b 0
    simpa using h
  · cases rest with
    | nil =>
      have hs : sanitize_version_tuple ([a, b, c].map fun n => PyVal.int (n : Int)) =
          .ok [.num (a : Int), .num (b : Int), .num (c : Int)] := rfl
      rw [hs]
      simp only [Except.bind, List.map_cons, List.map_nil, VComp.toPyVal]
      exact roundtrip_triple a b c
    | cons d rest2 => simp at h2

theorem C2_roundtrip_witness :
    ([1, 2] : List Nat) ≠ [] ∧ ([1, 2] : List Nat).length ≤ 3 ∧
    ((sanitize_version_tuple ([1, 2].map (fun n => PyVal.int (n : Int)))).bind (fun p =>
        (version_tuple_as_string (p.map VComp.toPyVal)).bind version_string_as_tuple)) =
      sanitize_version_tuple ([1, 2].map (fun n => PyVal.int (n : Int))) :=
  ⟨by simp, by simp, C2_roundtrip [1, 2] (by simp) (by simp)⟩
